import Mathlib

/-!
# packet.c: raw-socket transport, telemetry reporter and driver loop

A shallow embedding of `src/packet.c`.  Every C function of the file becomes a
Lean function of the same name.  Calls into the operating system and into the
external protocol engine (`poll`, `sendto`, `recvfrom`, `gethostbyname`,
`netchannel_*`, `route_*`, `packet_eth_process`, ...) are taken as inputs: the
value each call returns is a field of an environment record, and the call
itself is recorded as an `Event` in a trace, in program order.

Machine integers: `unsigned long` counters are `Nat` reduced modulo `2 ^ 64`
(LP64 Linux); `int` results are `Int`.  The `double` values of `alarm_signal`
are modelled by exact rationals.

Signals are asynchronous: the run is a sequence of steps, each either the
delivery of a registered signal or the next step of the main thread, and the
return of `netchannel_send` and the counter statement after it are distinct
steps of the main thread.
-/

namespace Packet

/-! ## Constants of the system headers and of `main` -/

/-- Value of the macro POLLIN in `<sys/poll.h>` on Linux. -/
def POLLIN : Nat := 1

/-- Value of the macro POLLOUT in `<sys/poll.h>` on Linux. -/
def POLLOUT : Nat := 4

/-- Value of the macro ETH_ALEN in `<net/ethernet.h>`. -/
def ETH_ALEN : Nat := 6

/-- Signal number of SIGINT on Linux. -/
def SIGINT : Int := 2

/-- Signal number of SIGALRM on Linux. -/
def SIGALRM : Int := 14

/-- Signal number of SIGTERM on Linux. -/
def SIGTERM : Int := 15

/-- Number of values of an `unsigned long` (LP64). -/
def ULONG_MOD : Nat := 2 ^ 64

/-- Number of values of an `int`. -/
def UINT_MOD : Int := 2 ^ 32

/-- The size of `unsigned char buf[4096]` in `packet_process` and `main`. -/
def BUF_SIZE : Nat := 4096

/-- The size of `char str[128]` in `main`, the payload length handed to the engine. -/
def STR_SIZE : Nat := 128

/-! ## Data model -/

/-- The fields of `struct nc_buff` that `packet_send` reads:
`ncb->head`, `ncb->size` and `ncb->dst->edst`. -/
structure NcBuff where
  head : List Nat
  size : Nat
  edst : List Nat
deriving DecidableEq, Repr

/-- A `struct timeval`. -/
structure Timeval where
  tv_sec : Int
  tv_usec : Int
deriving DecidableEq, Repr

/-- The `struct nc_route` filled in by `main`. -/
structure NcRoute where
  src : Nat
  dst : Nat
  proto : Nat
  header_size : Nat
  edst : List Nat
  esrc : List Nat
deriving DecidableEq, Repr

/-- The `struct unetchannel` filled in by `main`. -/
structure Unetchannel where
  src : Nat
  dst : Nat
  sport : Nat
  dport : Nat
  proto : Nat
deriving DecidableEq, Repr

/-- The values printed by the `fprintf` of `alarm_signal`, in the order of its
format string: time, bytes_sent, speed, speed + espeed, errors. -/
structure TelemetryLine where
  time : ℚ
  bytes_sent : Nat
  speed : ℚ
  total : ℚ
  errors : Nat
deriving DecidableEq

/-- The operation names passed to `ulog_err`, and the messages of `ulog`. -/
inductive LogMsg where
  | sendto
  | recvfrom
  | socket
  | bind
  | gethostbyname
  | connected
deriving DecidableEq, Repr

/-- The signal handlers installed by `main`. -/
inductive Handler where
  | term_signal
  | alarm_signal
deriving DecidableEq, Repr

/-- One observable call made by the program.  `netchannel_send` carries the
values formatted into the payload, the length handed to the engine and the
result the engine returned. -/
inductive Event where
  | poll (fd : Int) (events : Nat) (timeout : Int)
  | sendto (fd : Int) (head : List Nat) (size : Nat) (ifindex : Nat) (addr : List Nat)
  | recvfrom (fd : Int) (len : Nat)
  | packet_eth_process (buf : List Nat) (len : Int)
  | ncb_put (ncb : NcBuff)
  | ulog_err (m : LogMsg)
  | ulog (m : LogMsg)
  | usage
  | gethostbyname (name : String)
  | netchannel_init
  | route_init
  | route_add (rt : NcRoute)
  | socket
  | bind (fd : Int)
  | close (fd : Int)
  | signal (signo : Int) (h : Handler)
  | time
  | gettimeofday
  | alarm (seconds : Int)
  | netchannel_create (unc : Unetchannel)
  | netchannel_connect
  | netchannel_recv (len : Nat)
  | netchannel_send (sent : Int) (recv : Int) (len : Nat) (ret : Int)
  | fprintf (line : TelemetryLine)
deriving DecidableEq

/-- Recognises a `sendto` call. -/
def Event.is_sendto : Event → Bool
  | .sendto _ _ _ _ _ => true
  | _ => false

/-- Recognises a `recvfrom` call. -/
def Event.is_recvfrom : Event → Bool
  | .recvfrom _ _ => true
  | _ => false

/-- Recognises a call of the frame demultiplexer. -/
def Event.is_packet_eth_process : Event → Bool
  | .packet_eth_process _ _ => true
  | _ => false

/-- Recognises a release of a frame. -/
def Event.is_ncb_put : Event → Bool
  | .ncb_put _ => true
  | _ => false

/-- Recognises the socket creation call. -/
def Event.is_socket : Event → Bool
  | .socket => true
  | _ => false

/-- Recognises a submission to the engine's send entry point. -/
def Event.is_netchannel_send : Event → Bool
  | .netchannel_send _ _ _ _ => true
  | _ => false

/-! ## RawSocketTransport: `packet_send`, `transmit_data`, `packet_process` -/

/-- Outcomes of the system calls of `packet_send`: the result of `poll`, the
`revents` it stored, and the result of `sendto` as stored in `int err`. -/
structure SendEnv where
  poll_ret : Int
  revents : Nat
  sendto_ret : Int
deriving DecidableEq, Repr

/-- The function `packet_send` on socket `packet_socket`: result and calls made. -/
def packet_send (env : SendEnv) (packet_socket : Int) (ncb : NcBuff) : Int × List Event :=
  if env.poll_ret ≤ 0 then
    (-1, [Event.poll packet_socket POLLOUT 1000])
  else if env.revents &&& POLLOUT = 0 then
    (-1, [Event.poll packet_socket POLLOUT 1000])
  else
    let err := env.sendto_ret
    if err < 0 then
      (err, [Event.poll packet_socket POLLOUT 1000,
             Event.sendto packet_socket ncb.head ncb.size 2 (ncb.edst.take ETH_ALEN),
             Event.ulog_err LogMsg.sendto])
    else
      (0, [Event.poll packet_socket POLLOUT 1000,
           Event.sendto packet_socket ncb.head ncb.size 2 (ncb.edst.take ETH_ALEN)])

/-- The function `transmit_data` (built without DEBUG): result and calls made. -/
def transmit_data (env : SendEnv) (packet_socket : Int) (ncb : NcBuff) : Int × List Event :=
  let r := packet_send env packet_socket ncb
  if r.1 ≠ 0 then
    (r.1, r.2)
  else
    (0, r.2 ++ [Event.ncb_put ncb])

/-- Outcomes of the calls of `packet_process`: the result of `poll`, the
`revents` it stored, the socket read (given the buffer length, the result of
`recvfrom` and the bytes it wrote), and the external frame demultiplexer. -/
structure ProcEnv where
  poll_ret : Int
  revents : Nat
  recvfrom : Nat → Int × List Nat
  packet_eth_process : List Nat → Int → Int

/-- The function `packet_process` on socket `s`: result and calls made. -/
def packet_process (env : ProcEnv) (s : Int) : Int × List Event :=
  if env.poll_ret ≤ 0 then
    (-1, [Event.poll s POLLIN 0])
  else if env.revents &&& POLLIN = 0 then
    (-1, [Event.poll s POLLIN 0])
  else
    let r := env.recvfrom BUF_SIZE
    let err := r.1
    if err < 0 then
      (err, [Event.poll s POLLIN 0, Event.recvfrom s BUF_SIZE, Event.ulog_err LogMsg.recvfrom])
    else
      (env.packet_eth_process r.2 err,
       [Event.poll s POLLIN 0, Event.recvfrom s BUF_SIZE, Event.packet_eth_process r.2 err])

/-- A socket read with one pending frame: it copies at most the buffer length
it is given and returns the number of bytes copied. -/
def recvfrom_frame (frame : List Nat) (len : Nat) : Int × List Nat :=
  (((frame.take len).length : Nat), frame.take len)

/-! ## Process-wide state, SignalController and TelemetryReporter -/

/-- Position of the main thread in the `while (!need_exit)` loop of `main`:
at the loop condition, before `packet_process`, before `netchannel_recv`,
before the `snprintf` and the call of `netchannel_send`, after that call has
returned `ret` and before the counter statement it selects
(`bytes_sent += sizeof(str); sent++;` or `error += sizeof(str);`), or after
`return 0`.  A signal can be delivered at each of these positions. -/
inductive Loc where
  | check
  | process
  | recv
  | send
  | count (ret : Int)
  | stopped
deriving DecidableEq, Repr

/-- The file-scope variables of `packet.c`, the two `static int` locals of the
loop body, the position of the main thread and the calls made so far. -/
structure State where
  need_exit : Int
  packet_socket : Int
  alarm_timeout : Int
  packet_timestamp : Nat
  tm1 : Timeval
  tm2 : Timeval
  bytes_sent : Nat
  error : Nat
  sent : Int
  recv : Int
  loc : Loc
  trace : List Event

/-- The state at program start: objects of static storage duration are zero,
except `alarm_timeout = 1`. -/
def start : State :=
  { need_exit := 0, packet_socket := 0, alarm_timeout := 1, packet_timestamp := 0,
    tm1 := ⟨0, 0⟩, tm2 := ⟨0, 0⟩, bytes_sent := 0, error := 0, sent := 0, recv := 0,
    loc := Loc.check, trace := [] }

/-- Increment of an `int` as a two's-complement machine performs it. -/
def int_incr (x : Int) : Int :=
  (x + 1 + 2 ^ 31) % UINT_MOD - 2 ^ 31

/-- Addition on `unsigned long`. -/
def ulong_add (x y : Nat) : Nat :=
  (x + y) % ULONG_MOD

/-- The function `term_signal`. -/
def term_signal (s : State) (signo : Int) : State :=
  { s with need_exit := signo }

/-- The value `diff` of `alarm_signal`, in microseconds, from the baseline
`tm1` and the captured instant `tm2`. -/
def alarm_diff (tm1 tm2 : Timeval) : Int :=
  (tm2.tv_sec - tm1.tv_sec) * 1000000 + tm2.tv_usec - tm1.tv_usec

/-- The value `speed` (and, applied to `error`, `espeed`) of `alarm_signal`:
initialised to `0.0`, assigned only under `if (diff != 0)`. -/
def alarm_speed (count : Nat) (diff : Int) : ℚ :=
  if diff ≠ 0 then
    (count : ℚ) * 1000000 / ((diff : ℚ) * 1024 * 1024)
  else
    0

/-- The line `alarm_signal` prints when it captures the instant `now`. -/
def alarm_line (s : State) (now : Timeval) : TelemetryLine :=
  let diff := alarm_diff s.tm1 now
  let speed := alarm_speed s.bytes_sent diff
  let espeed := alarm_speed s.error diff
  { time := (diff : ℚ) / 1000000, bytes_sent := s.bytes_sent, speed := speed,
    total := speed + espeed, errors := s.error }

/-- The function `alarm_signal`, with the results of `time(NULL)` and of
`gettimeofday` as inputs. -/
def alarm_signal (s : State) (time : Nat) (now : Timeval) : State :=
  { s with
    packet_timestamp := time % 2 ^ 32
    tm2 := now
    trace := s.trace ++ [Event.time, Event.gettimeofday, Event.fprintf (alarm_line s now),
                         Event.alarm s.alarm_timeout] }

/-! ## DriverLoop -/

/-- Outcomes of the collaborators called in one iteration of the loop. -/
structure IterEnv where
  proc : ProcEnv
  netchannel_recv_ret : Int
  netchannel_send_ret : Int

/-- The statement the main thread executes next in the loop of `main`.  The
call of `netchannel_send` and the counter statement that follows it are two
steps, so that a signal can be delivered between them.  The locals `sent` and
`recv` are read by no handler, so `sent++` is taken together with
`bytes_sent += sizeof(str)` and `recv++` with the call of `netchannel_recv`. -/
def main_step (s : State) (o : IterEnv) : State :=
  match s.loc with
  | Loc.check =>
    if s.need_exit ≠ 0 then { s with loc := Loc.stopped } else { s with loc := Loc.process }
  | Loc.process =>
    { s with loc := Loc.recv, trace := s.trace ++ (packet_process o.proc s.packet_socket).2 }
  | Loc.recv =>
    if 0 ≤ o.netchannel_recv_ret then
      { s with recv := int_incr s.recv, loc := Loc.send,
               trace := s.trace ++ [Event.netchannel_recv BUF_SIZE] }
    else
      { s with loc := Loc.send, trace := s.trace ++ [Event.netchannel_recv BUF_SIZE] }
  | Loc.send =>
    { s with loc := Loc.count o.netchannel_send_ret,
             trace := s.trace ++
               [Event.netchannel_send s.sent s.recv STR_SIZE o.netchannel_send_ret] }
  | Loc.count ret =>
    if 0 ≤ ret then
      { s with bytes_sent := ulong_add s.bytes_sent STR_SIZE, sent := int_incr s.sent,
               loc := Loc.check }
    else
      { s with error := ulong_add s.error STR_SIZE, loc := Loc.check }
  | Loc.stopped => s

/-- What happens next: one of the three registered signals is delivered, or the
main thread executes its next statement. -/
inductive Input where
  | sigterm
  | sigint
  | sigalrm (time : Nat) (now : Timeval)
  | run (o : IterEnv)

/-- One step of the process once the handlers are installed.  After `main` has
returned nothing runs any more. -/
def step (s : State) (i : Input) : State :=
  match s.loc with
  | Loc.stopped => s
  | _ =>
    match i with
    | Input.sigterm => term_signal s SIGTERM
    | Input.sigint => term_signal s SIGINT
    | Input.sigalrm time now => alarm_signal s time now
    | Input.run o => main_step s o

/-- A finite run: the inputs are consumed from left to right. -/
def run_steps (s : State) (inputs : List Input) : State :=
  inputs.foldl step s

/-- Sum of the payload lengths of the engine sends of a trace that succeeded. -/
def sent_payload : List Event → Nat
  | [] => 0
  | Event.netchannel_send _ _ len ret :: rest =>
    if 0 ≤ ret then len + sent_payload rest else sent_payload rest
  | _ :: rest => sent_payload rest

/-- The lines printed by the telemetry ticks of a trace, oldest first. -/
def telemetry_lines : List Event → List TelemetryLine
  | [] => []
  | Event.fprintf line :: rest => line :: telemetry_lines rest
  | _ :: rest => telemetry_lines rest

/-! ## Startup: `packet_convert_addr`, `packet_create_socket`, `main` -/

/-- One return of `getopt` other than `-1`: the option character, `optarg`,
and the value `atoi(optarg)`. -/
structure GetoptItem where
  ch : Char
  optarg : String
  atoi : Int

/-- The locals of `main` that the option loop assigns. -/
structure Config where
  saddr : String
  daddr : String
  sport : Nat
  dport : Nat
  proto : Nat
deriving DecidableEq, Repr

/-- The `while ((ch = getopt(...)) != -1)` loop of `main` over the successive
returns of `getopt`; `none` is the `default:` case (usage, `return 0`). -/
def parse_options : List GetoptItem → Config → Option Config
  | [], c => some c
  | it :: rest, c =>
    match it.ch with
    | 'p' => parse_options rest { c with proto := (it.atoi % 256).toNat }
    | 'D' => parse_options rest { c with dport := (it.atoi % 65536).toNat }
    | 'S' => parse_options rest { c with sport := (it.atoi % 65536).toNat }
    | 'd' => parse_options rest { c with daddr := it.optarg }
    | 's' => parse_options rest { c with saddr := it.optarg }
    | _ => none

/-- The function `htons` on a little-endian host. -/
def htons (x : Nat) : Nat :=
  (x % 256) * 256 + (x / 256) % 256

/-- Outcomes of the collaborators called by `main` before the loop. -/
structure InitEnv where
  getopt : List GetoptItem
  rand : Int
  gethostbyname : String → Option Nat
  netchannel_init_ret : Int
  route_init_ret : Int
  route_add_ret : Int
  socket_ret : Int
  bind_ret : Int
  time : Nat
  gettimeofday : Timeval
  netchannel_create_ok : Bool
  netchannel_connect_ret : Int

/-- The function `packet_convert_addr`: its `unsigned int` result (`-1`
converted, or `0`), the address stored, and the calls made. -/
def packet_convert_addr (gethostbyname : String → Option Nat) (addr_str : String) :
    Nat × Nat × List Event :=
  match gethostbyname addr_str with
  | none => (4294967295, 0, [Event.gethostbyname addr_str, Event.ulog_err LogMsg.gethostbyname])
  | some a => (0, a, [Event.gethostbyname addr_str])

/-- The function `packet_create_socket`, from the results of `socket` and `bind`. -/
def packet_create_socket (socket_ret bind_ret : Int) : Int × List Event :=
  if socket_ret = -1 then
    (-1, [Event.socket, Event.ulog_err LogMsg.socket])
  else if bind_ret ≠ 0 then
    (-1, [Event.socket, Event.bind socket_ret, Event.ulog_err LogMsg.bind,
          Event.close socket_ret])
  else
    (socket_ret, [Event.socket, Event.bind socket_ret])

/-- How the part of `main` before the loop ends: `main` has returned a status,
or the loop is reached in a state. -/
inductive InitResult where
  | returned (status : Int) (trace : List Event)
  | entered (s : State)

/-- The values `main` gives its option locals before the option loop. -/
def default_config (rand : Int) : Config :=
  { saddr := "192.168.0.48", daddr := "192.168.4.78", sport := (rand % 65536).toNat,
    dport := 1025, proto := 6 }

/-- The array `edst` of `main`. -/
def main_edst : List Nat := [0x00, 0x0E, 0x0C, 0x83, 0x87, 0xF0]

/-- The array `esrc` of `main`. -/
def main_esrc : List Nat := [0x00, 0x11, 0x09, 0x61, 0xEB, 0x0E]

/-- The function `main` up to the `while` loop. -/
def main_init (env : InitEnv) : InitResult :=
  match parse_options env.getopt (default_config env.rand) with
  | none => InitResult.returned 0 [Event.usage]
  | some c =>
    let r1 := packet_convert_addr env.gethostbyname c.saddr
    if r1.1 ≠ 0 then
      InitResult.returned (-1) (r1.2.2 ++ [Event.usage])
    else
      let r2 := packet_convert_addr env.gethostbyname c.daddr
      let t2 := r1.2.2 ++ r2.2.2
      if r2.1 ≠ 0 then
        InitResult.returned (-1) (t2 ++ [Event.usage])
      else if env.netchannel_init_ret ≠ 0 then
        InitResult.returned env.netchannel_init_ret (t2 ++ [Event.netchannel_init])
      else if env.route_init_ret ≠ 0 then
        InitResult.returned env.route_init_ret (t2 ++ [Event.netchannel_init, Event.route_init])
      else
        let rt : NcRoute :=
          { src := r1.2.1, dst := r2.2.1, proto := c.proto, header_size := 20 + 20 + 14 + 20,
            edst := main_edst.take ETH_ALEN, esrc := main_esrc.take ETH_ALEN }
        let t3 := t2 ++ [Event.netchannel_init, Event.route_init, Event.route_add rt]
        if env.route_add_ret ≠ 0 then
          InitResult.returned env.route_add_ret t3
        else
          let ps := packet_create_socket env.socket_ret env.bind_ret
          let t4 := t3 ++ ps.2
          if ps.1 = -1 then
            InitResult.returned (-1) t4
          else
            let unc : Unetchannel :=
              { src := r1.2.1, dst := r2.2.1, sport := htons c.sport, dport := htons c.dport,
                proto := c.proto }
            let t5 := t4 ++ [Event.signal SIGTERM Handler.term_signal,
                             Event.signal SIGINT Handler.term_signal,
                             Event.signal SIGALRM Handler.alarm_signal,
                             Event.time, Event.gettimeofday, Event.alarm start.alarm_timeout,
                             Event.netchannel_create unc]
            if env.netchannel_create_ok = false then
              InitResult.returned (-1) t5
            else if env.netchannel_connect_ret ≠ 0 then
              InitResult.returned (-1) (t5 ++ [Event.netchannel_connect])
            else
              InitResult.entered
                { start with
                  packet_socket := ps.1
                  packet_timestamp := env.time % 2 ^ 32
                  tm1 := env.gettimeofday
                  loc := Loc.check
                  trace := t5 ++ [Event.netchannel_connect, Event.ulog LogMsg.connected] }

/-- The function `main` on a finite run: the status it returns, or `none`
while the loop is still running at the end of the inputs, and the calls made. -/
def main (env : InitEnv) (inputs : List Input) : Option Int × List Event :=
  match main_init env with
  | InitResult.returned status trace => (some status, trace)
  | InitResult.entered s0 =>
    let s := run_steps s0 inputs
    (if s.loc = Loc.stopped then some 0 else none, s.trace)

/-- Some step of the initialization of `main` fails, for the options `c`:
address resolution, `netchannel_init`, `route_init`, `route_add`, `socket`,
`bind`, `netchannel_create` or `netchannel_connect`. -/
def init_fails (env : InitEnv) (c : Config) : Prop :=
  env.gethostbyname c.saddr = none ∨ env.gethostbyname c.daddr = none ∨
  env.netchannel_init_ret ≠ 0 ∨ env.route_init_ret ≠ 0 ∨ env.route_add_ret ≠ 0 ∨
  env.socket_ret = -1 ∨ env.bind_ret ≠ 0 ∨
  env.netchannel_create_ok = false ∨ env.netchannel_connect_ret ≠ 0

/-! ## Derived notions used in the statements -/

/-- The readiness check of `packet_process` reports nothing pending. -/
def no_data_pending (env : ProcEnv) : Prop :=
  env.poll_ret ≤ 0 ∨ env.revents &&& POLLIN = 0

/-- The readiness check of `packet_process` is positive and the read fails. -/
def read_fails (env : ProcEnv) : Prop :=
  0 < env.poll_ret ∧ env.revents &&& POLLIN ≠ 0 ∧ (env.recvfrom BUF_SIZE).1 < 0

/-- An idle socket: `poll` returns `0`. -/
def env_idle : ProcEnv :=
  { poll_ret := 0, revents := 0, recvfrom := fun _ => (0, []),
    packet_eth_process := fun _ _ => 0 }

/-- A readable socket on which `recvfrom` fails, returning `-1`. -/
def env_read_error : ProcEnv :=
  { poll_ret := 1, revents := POLLIN, recvfrom := fun _ => (-1, []),
    packet_eth_process := fun _ _ => 0 }

/-- A frame of 60 bytes for the destination address of `main`. -/
def sample_frame : NcBuff :=
  { head := List.replicate 60 0, size := 60, edst := main_edst }

/-- One pass of the main thread through the loop with no signal delivered:
the loop condition, `packet_process`, `netchannel_recv`, the call of
`netchannel_send` and the counter statement. -/
def iteration (s : State) (o : IterEnv) : State :=
  main_step (main_step (main_step (main_step (main_step s o) o) o) o) o

/-- The payload of an engine send that has returned successfully and whose
counter statement has not been executed yet. -/
def pending_payload : Loc → Nat
  | Loc.count ret => if 0 ≤ ret then STR_SIZE else 0
  | _ => 0

/-- An instant in microseconds. -/
def micros (t : Timeval) : Int :=
  t.tv_sec * 1000000 + t.tv_usec

/-- The number of statements the main thread executes in a list of inputs. -/
def count_runs : List Input → Nat
  | [] => 0
  | Input.run _ :: rest => count_runs rest + 1
  | _ :: rest => count_runs rest

/-- The number of statements left before the loop condition is evaluated and
found false, once `need_exit` is non-zero. -/
def steps_left : Loc → Nat
  | Loc.process => 5
  | Loc.recv => 4
  | Loc.send => 3
  | Loc.count _ => 2
  | Loc.check => 1
  | Loc.stopped => 0

/-- The number of engine sends still ahead in the iteration in progress. -/
def sends_left : Loc → Nat
  | Loc.process => 1
  | Loc.recv => 1
  | Loc.send => 1
  | Loc.count _ => 0
  | Loc.check => 0
  | Loc.stopped => 0

/-- An iteration in which nothing is pending, the engine has no data and the
engine send returns `r`. -/
def iter_env (r : Int) : IterEnv :=
  { proc := env_idle, netchannel_recv_ret := -1, netchannel_send_ret := r }

/-- A startup in which every collaborator succeeds: no options, both names
resolve, socket 3, startup instant 100 s. -/
def env_ok : InitEnv :=
  { getopt := [], rand := 4660, gethostbyname := fun _ => some 16777343,
    netchannel_init_ret := 0, route_init_ret := 0, route_add_ret := 0,
    socket_ret := 3, bind_ret := 0, time := 100, gettimeofday := ⟨100, 0⟩,
    netchannel_create_ok := true, netchannel_connect_ret := 0 }

/-- A startup in which the destination name does not resolve. -/
def env_unresolved : InitEnv :=
  { env_ok with gethostbyname := fun name => if name = "192.168.4.78" then none else some 1 }

/-- The state in which the loop is reached for the startup outcomes `env`
(the state at program start when `main` returns before the loop). -/
def loop_entry (env : InitEnv) : State :=
  match main_init env with
  | InitResult.entered s => s
  | InitResult.returned _ _ => start

/-- The state after the startup `env_ok` (baseline at 100 s) and a first
telemetry tick at 101 s. -/
def state_after_tick : State :=
  step (loop_entry env_ok) (Input.sigalrm 101 ⟨101, 0⟩)

/-- Recognises the delivery of SIGTERM or SIGINT. -/
def Input.is_term : Input → Bool
  | Input.sigterm => true
  | Input.sigint => true
  | _ => false

/-- One full iteration with a successful send, a telemetry tick, and one full
iteration with a failed send, statement by statement. -/
def two_iterations : List Input :=
  [Input.run (iter_env 128), Input.run (iter_env 128), Input.run (iter_env 128),
   Input.run (iter_env 128), Input.run (iter_env 128), Input.sigalrm 101 ⟨101, 0⟩,
   Input.run (iter_env (-1)), Input.run (iter_env (-1)), Input.run (iter_env (-1)),
   Input.run (iter_env (-1)), Input.run (iter_env (-1))]

/-- The first iteration up to the return of a successful `netchannel_send`:
the loop condition, `packet_process`, `netchannel_recv` and the call. -/
def send_returned : List Input :=
  [Input.run (iter_env 128), Input.run (iter_env 128), Input.run (iter_env 128),
   Input.run (iter_env 128)]

/-! ## Theorems: RawSocketTransport -/

/-- C4: for every frame and every outcome of `poll` and `sendto`: when the
writability poll (timeout 1000) returns `<= 0` or POLLOUT is not set,
`transmit_data` returns non-zero having made the poll only (no `sendto`, no
`ncb_put`); when the write fails it returns the negative write result and does
not call `ncb_put`; it returns `0` exactly when the poll reported writability
and the write succeeded, and then `ncb_put` is called exactly once, last. -/
theorem transmit_data_contract (env : SendEnv) (sock : Int) (ncb : NcBuff) :
    ((env.poll_ret ≤ 0 ∨ env.revents &&& POLLOUT = 0) →
      (transmit_data env sock ncb).1 ≠ 0 ∧
      (transmit_data env sock ncb).2 = [Event.poll sock POLLOUT 1000] ∧
      (transmit_data env sock ncb).2.countP Event.is_sendto = 0 ∧
      (transmit_data env sock ncb).2.countP Event.is_ncb_put = 0) ∧
    ((0 < env.poll_ret ∧ env.revents &&& POLLOUT ≠ 0 ∧ env.sendto_ret < 0) →
      (transmit_data env sock ncb).1 = env.sendto_ret ∧
      (transmit_data env sock ncb).2.countP Event.is_sendto = 1 ∧
      (transmit_data env sock ncb).2.countP Event.is_ncb_put = 0) ∧
    ((transmit_data env sock ncb).1 = 0 ↔
      (0 < env.poll_ret ∧ env.revents &&& POLLOUT ≠ 0 ∧ 0 ≤ env.sendto_ret)) ∧
    ((transmit_data env sock ncb).1 = 0 →
      (transmit_data env sock ncb).2 =
        [Event.poll sock POLLOUT 1000,
         Event.sendto sock ncb.head ncb.size 2 (ncb.edst.take ETH_ALEN),
         Event.ncb_put ncb] ∧
      (transmit_data env sock ncb).2.countP Event.is_ncb_put = 1) := by
  by_cases hp : env.poll_ret ≤ 0
  · simp [transmit_data, packet_send, hp, Event.is_sendto, Event.is_ncb_put]
  · by_cases hr : env.revents &&& POLLOUT = 0
    · simp [transmit_data, packet_send, hp, hr, Event.is_sendto, Event.is_ncb_put]
    · by_cases hs : env.sendto_ret < 0
      · have hne : env.sendto_ret ≠ 0 := by omega
        simp [transmit_data, packet_send, hp, hr, hs, hne, Event.is_sendto, Event.is_ncb_put]
      · simp [transmit_data, packet_send, hp, hr, hs, Event.is_sendto, Event.is_ncb_put]
        omega

/-- Witness of C4: a timed-out poll, a failed write and a successful write of
`sample_frame` on socket 3. -/
theorem transmit_data_contract_witness :
    ((transmit_data ⟨0, 0, 0⟩ 3 sample_frame).1 ≠ 0 ∧
      (transmit_data ⟨0, 0, 0⟩ 3 sample_frame).2 = [Event.poll 3 POLLOUT 1000] ∧
      (transmit_data ⟨0, 0, 0⟩ 3 sample_frame).2.countP Event.is_sendto = 0 ∧
      (transmit_data ⟨0, 0, 0⟩ 3 sample_frame).2.countP Event.is_ncb_put = 0) ∧
    ((transmit_data ⟨1, 4, -1⟩ 3 sample_frame).1 = -1 ∧
      (transmit_data ⟨1, 4, -1⟩ 3 sample_frame).2.countP Event.is_sendto = 1 ∧
      (transmit_data ⟨1, 4, -1⟩ 3 sample_frame).2.countP Event.is_ncb_put = 0) ∧
    (transmit_data ⟨1, 4, 60⟩ 3 sample_frame).1 = 0 :=
  ⟨(transmit_data_contract ⟨0, 0, 0⟩ 3 sample_frame).1 (Or.inl (by decide)),
   (transmit_data_contract ⟨1, 4, -1⟩ 3 sample_frame).2.1 ⟨by decide, by decide, by decide⟩,
   (transmit_data_contract ⟨1, 4, 60⟩ 3 sample_frame).2.2.1.mpr ⟨by decide, by decide, by decide⟩⟩

/-- C5 as stated fails: an idle socket (`poll` returns 0) and a read failure
after positive readiness (`recvfrom` returns -1) give `packet_process` the same
result, `-1`. -/
theorem no_data_result_equals_read_error_result :
    no_data_pending env_idle ∧ read_fails env_read_error ∧
    (packet_process env_idle 3).1 = -1 ∧
    (packet_process env_read_error 3).1 = (packet_process env_idle 3).1 := by
  refine ⟨Or.inl (by decide), ⟨by decide, by decide, by decide⟩, by decide, by decide⟩

/-- C5 amended: the readiness check of `packet_process` is a `poll` with
timeout 0; when it reports nothing pending the call returns `-1` having made
that poll only (no `recvfrom`, no `packet_eth_process`); when the read fails
after positive readiness the call returns the negative result of `recvfrom`
after logging it, without calling `packet_eth_process`.  The two results are
the same number whenever `recvfrom` returns `-1`. -/
theorem packet_process_no_data (env : ProcEnv) (s : Int) :
    (packet_process env s).2.head? = some (Event.poll s POLLIN 0) ∧
    (no_data_pending env →
      packet_process env s = (-1, [Event.poll s POLLIN 0]) ∧
      (packet_process env s).2.countP Event.is_recvfrom = 0 ∧
      (packet_process env s).2.countP Event.is_packet_eth_process = 0) ∧
    (read_fails env →
      packet_process env s =
        ((env.recvfrom BUF_SIZE).1,
         [Event.poll s POLLIN 0, Event.recvfrom s BUF_SIZE, Event.ulog_err LogMsg.recvfrom]) ∧
      (packet_process env s).2.countP Event.is_packet_eth_process = 0) ∧
    (no_data_pending env → ∀ env2 : ProcEnv, read_fails env2 →
      (env2.recvfrom BUF_SIZE).1 = -1 →
      (packet_process env2 s).1 = (packet_process env s).1) := by
  have hnd : no_data_pending env → packet_process env s = (-1, [Event.poll s POLLIN 0]) := by
    intro h
    unfold packet_process
    rcases h with h | h
    · simp [h]
    · simp [h]
  have hrf : ∀ e : ProcEnv, read_fails e → packet_process e s =
      ((e.recvfrom BUF_SIZE).1,
       [Event.poll s POLLIN 0, Event.recvfrom s BUF_SIZE, Event.ulog_err LogMsg.recvfrom]) := by
    intro e h
    obtain ⟨h1, h2, h3⟩ := h
    have h1n : ¬ e.poll_ret ≤ 0 := by omega
    simp [packet_process, h1n, h2, h3]
  refine ⟨?_, ?_, ?_, ?_⟩
  · simp only [packet_process]
    split_ifs <;> rfl
  · intro h
    rw [hnd h]
    simp [Event.is_recvfrom, Event.is_packet_eth_process]
  · intro h
    rw [hrf env h]
    simp [Event.is_packet_eth_process]
  · intro h env2 h2 hret
    rw [hnd h, hrf env2 h2]
    simpa using hret

/-- Witness of C5 amended: the idle socket and the failing read on socket 3. -/
theorem packet_process_no_data_witness :
    packet_process env_idle 3 = (-1, [Event.poll 3 POLLIN 0]) ∧
    (packet_process env_read_error 3).1 = (packet_process env_idle 3).1 :=
  ⟨((packet_process_no_data env_idle 3).2.1 (Or.inl (by decide))).1,
   (packet_process_no_data env_idle 3).2.2.2 (Or.inl (by decide)) env_read_error
     ⟨by decide, by decide, by decide⟩ (by decide)⟩

/-- C6: for every pending frame of length `L` (positive readiness, the read
copying at most the buffer length), `packet_process` makes one `recvfrom` with
a 4096-byte buffer and hands the first `min L 4096` bytes, with that length, to
`packet_eth_process`, whose result it returns; nothing is logged.  A frame of
5000 bytes is forwarded as its first 4096 bytes. -/
theorem packet_process_forwards_truncated (frame : List Nat) (poll_ret : Int) (revents : Nat)
    (demux : List Nat → Int → Int) (s : Int)
    (hp : 0 < poll_ret) (hr : revents &&& POLLIN ≠ 0) :
    packet_process ⟨poll_ret, revents, recvfrom_frame frame, demux⟩ s =
      (demux (frame.take 4096) ((min frame.length 4096 : Nat) : Int),
       [Event.poll s POLLIN 0, Event.recvfrom s 4096,
        Event.packet_eth_process (frame.take 4096) ((min frame.length 4096 : Nat) : Int)]) ∧
    (frame.take 4096).length = min frame.length 4096 ∧
    (frame.length = 5000 →
      (frame.take 4096).length = 4096 ∧
      packet_process ⟨poll_ret, revents, recvfrom_frame frame, demux⟩ s =
        (demux (frame.take 4096) 4096,
         [Event.poll s POLLIN 0, Event.recvfrom s 4096,
          Event.packet_eth_process (frame.take 4096) 4096])) := by
  have hp2 : ¬ poll_ret ≤ 0 := by omega
  have hlen : (frame.take 4096).length = min frame.length 4096 := by
    rw [List.length_take, Nat.min_comm]
  have hnn : ¬ ((min frame.length 4096 : Nat) : Int) < 0 := not_lt.mpr (Nat.cast_nonneg _)
  have main : packet_process ⟨poll_ret, revents, recvfrom_frame frame, demux⟩ s =
      (demux (frame.take 4096) ((min frame.length 4096 : Nat) : Int),
       [Event.poll s POLLIN 0, Event.recvfrom s 4096,
        Event.packet_eth_process (frame.take 4096) ((min frame.length 4096 : Nat) : Int)]) := by
    simp only [packet_process, recvfrom_frame, BUF_SIZE, hp2, hr, hnn, if_false, hlen]
  refine ⟨main, hlen, ?_⟩
  intro h5
  have h4 : min frame.length 4096 = 4096 := by omega
  refine ⟨by omega, ?_⟩
  rw [main, h4]
  rfl

/-- Witness of C6: a frame of 5000 bytes on socket 3, the demultiplexer
returning the length it is given. -/
theorem packet_process_forwards_truncated_witness :
    (List.replicate 5000 7).length = 5000 ∧
    packet_process ⟨1, POLLIN, recvfrom_frame (List.replicate 5000 7), fun _ n => n⟩ 3 =
      (4096, [Event.poll 3 POLLIN 0, Event.recvfrom 3 4096,
              Event.packet_eth_process ((List.replicate 5000 7).take 4096) 4096]) :=
  ⟨List.length_replicate ..,
   ((packet_process_forwards_truncated (List.replicate 5000 7) 1 POLLIN (fun _ n => n) 3
      (by decide) (by decide)).2.2 (List.length_replicate ..)).2⟩

/-! ## Theorems: DriverLoop counters -/

/-- The call of `netchannel_send`, spelled out. -/
lemma main_step_send (s : State) (o : IterEnv) (h : s.loc = Loc.send) :
    main_step s o =
      { s with loc := Loc.count o.netchannel_send_ret,
               trace := s.trace ++
                 [Event.netchannel_send s.sent s.recv STR_SIZE o.netchannel_send_ret] } := by
  simp [main_step, h]

/-- The counter statement after `netchannel_send` has returned `ret`, spelled out. -/
lemma main_step_count (s : State) (o : IterEnv) (ret : Int) (h : s.loc = Loc.count ret) :
    main_step s o =
      if 0 ≤ ret then
        { s with bytes_sent := ulong_add s.bytes_sent STR_SIZE, sent := int_incr s.sent,
                 loc := Loc.check }
      else
        { s with error := ulong_add s.error STR_SIZE, loc := Loc.check } := by
  simp [main_step, h]

/-- The three statements before the send leave the counters alone and reach
`Loc.send`. -/
lemma before_send (s : State) (o : IterEnv) (hloc : s.loc = Loc.check) (hrun : s.need_exit = 0) :
    (main_step (main_step (main_step s o) o) o).loc = Loc.send ∧
    (main_step (main_step (main_step s o) o) o).bytes_sent = s.bytes_sent ∧
    (main_step (main_step (main_step s o) o) o).error = s.error ∧
    (main_step (main_step (main_step s o) o) o).sent = s.sent ∧
    (main_step (main_step (main_step s o) o) o).need_exit = s.need_exit := by
  have h1 : main_step s o = { s with loc := Loc.process } := by
    simp [main_step, hloc, hrun]
  rw [h1]
  by_cases hr : 0 ≤ o.netchannel_recv_ret <;> simp [main_step, hr]

/-- Addition on `unsigned long` is exact when the sum is representable. -/
lemma ulong_add_exact (x y : Nat) (h : x + y < ULONG_MOD) : ulong_add x y = x + y := by
  unfold ulong_add
  exact Nat.mod_eq_of_lt h

/-- Increment of an `int` is exact below INT_MAX. -/
lemma int_incr_exact (x : Int) (h1 : -2 ^ 31 ≤ x) (h2 : x < 2 ^ 31 - 1) : int_incr x = x + 1 := by
  unfold int_incr UINT_MOD
  omega

/-- C1: in every iteration of the loop (entered with `need_exit = 0`), whatever
the collaborators return: the engine is handed a payload of length
`sizeof(str) = 128`; if `netchannel_send` returns `>= 0` then `bytes_sent` is
increased by 128 (in `unsigned long` arithmetic, exactly 128 when representable),
`sent` is incremented and `error` is unchanged; if it returns a negative value,
`error` is increased by 128 and `bytes_sent` and `sent` are unchanged. -/
theorem iteration_counters (s : State) (o : IterEnv)
    (hloc : s.loc = Loc.check) (hrun : s.need_exit = 0) :
    STR_SIZE = 128 ∧
    ((iteration s o).trace.getLast? =
        some (Event.netchannel_send s.sent (main_step (main_step (main_step s o) o) o).recv
          STR_SIZE o.netchannel_send_ret)) ∧
    (0 ≤ o.netchannel_send_ret →
      (iteration s o).bytes_sent = ulong_add s.bytes_sent STR_SIZE ∧
      (s.bytes_sent + STR_SIZE < ULONG_MOD →
        (iteration s o).bytes_sent = s.bytes_sent + STR_SIZE) ∧
      (iteration s o).sent = int_incr s.sent ∧
      (-2 ^ 31 ≤ s.sent → s.sent < 2 ^ 31 - 1 → (iteration s o).sent = s.sent + 1) ∧
      (iteration s o).error = s.error) ∧
    (o.netchannel_send_ret < 0 →
      (iteration s o).error = ulong_add s.error STR_SIZE ∧
      (s.error + STR_SIZE < ULONG_MOD → (iteration s o).error = s.error + STR_SIZE) ∧
      (iteration s o).bytes_sent = s.bytes_sent ∧
      (iteration s o).sent = s.sent) := by
  obtain ⟨hl, hb, he, hs, _⟩ := before_send s o hloc hrun
  have hit : iteration s o =
      main_step (main_step (main_step (main_step (main_step s o) o) o) o) o := rfl
  rw [hit, main_step_send _ o hl, main_step_count _ o o.netchannel_send_ret rfl]
  refine ⟨rfl, ?_, ?_, ?_⟩
  · split_ifs <;> simp [hs]
  · intro h
    simp only [h, if_true, hb, he, hs]
    refine ⟨trivial, fun hlt => ulong_add_exact _ _ hlt, trivial, ?_, trivial⟩
    intro h1 h2
    exact int_incr_exact _ h1 h2
  · intro h
    have hn : ¬ 0 ≤ o.netchannel_send_ret := by omega
    simp only [hn, if_false, hb, he, hs]
    exact ⟨trivial, fun hlt => ulong_add_exact _ _ hlt, trivial, trivial⟩

/-- Witness of C1: from the state at program start, a successful send
(`netchannel_send` returns 128) and a failed one (returns -1). -/
theorem iteration_counters_witness :
    ((iteration start (iter_env 128)).bytes_sent = 0 + 128 ∧
     (iteration start (iter_env 128)).sent = 0 + 1 ∧
     (iteration start (iter_env 128)).error = 0) ∧
    ((iteration start (iter_env (-1))).error = 0 + 128 ∧
     (iteration start (iter_env (-1))).bytes_sent = 0 ∧
     (iteration start (iter_env (-1))).sent = 0) :=
  ⟨⟨((iteration_counters start (iter_env 128) rfl rfl).2.2.1 (by decide)).2.1 (by decide),
    ((iteration_counters start (iter_env 128) rfl rfl).2.2.1 (by decide)).2.2.2.1
      (by decide) (by decide),
    ((iteration_counters start (iter_env 128) rfl rfl).2.2.1 (by decide)).2.2.2.2⟩,
   ⟨((iteration_counters start (iter_env (-1)) rfl rfl).2.2.2 (by decide)).2.1 (by decide),
    ((iteration_counters start (iter_env (-1)) rfl rfl).2.2.2 (by decide)).2.2.1,
    ((iteration_counters start (iter_env (-1)) rfl rfl).2.2.2 (by decide)).2.2.2⟩⟩

/-! ## Theorems: invariants of the run -/

/-- The payload sum of a concatenation. -/
lemma sent_payload_append (a b : List Event) :
    sent_payload (a ++ b) = sent_payload a + sent_payload b := by
  induction a with
  | nil => simp [sent_payload]
  | cons e rest ih =>
    cases e <;> simp [sent_payload, ih]
    split_ifs <;> omega

/-- The transport calls of `packet_process` contain no engine send. -/
lemma sent_payload_packet_process (env : ProcEnv) (fd : Int) :
    sent_payload (packet_process env fd).2 = 0 := by
  simp only [packet_process]
  split_ifs <;> simp [sent_payload]

/-- The resolver calls contain no engine send. -/
lemma sent_payload_convert_addr (g : String → Option Nat) (name : String) :
    sent_payload (packet_convert_addr g name).2.2 = 0 := by
  unfold packet_convert_addr
  split <;> simp [sent_payload]

/-- The socket creation calls contain no engine send. -/
lemma sent_payload_create_socket (a b : Int) :
    sent_payload (packet_create_socket a b).2 = 0 := by
  unfold packet_create_socket
  split_ifs <;> simp [sent_payload]

/-- What is known of the state in which the loop is reached. -/
lemma main_init_entered (env : InitEnv) (s0 : State)
    (h : main_init env = InitResult.entered s0) :
    s0.need_exit = 0 ∧ s0.bytes_sent = 0 ∧ s0.error = 0 ∧ s0.tm1 = env.gettimeofday ∧
    s0.loc = Loc.check ∧ sent_payload s0.trace = 0 := by
  unfold main_init at h
  split at h
  · cases h
  · dsimp only at h
    split_ifs at h
    cases h
    simp [start, sent_payload_append, sent_payload_convert_addr, sent_payload_create_socket,
      sent_payload]

/-- No step changes the baseline `tm1`. -/
lemma step_tm1 (s : State) (i : Input) : (step s i).tm1 = s.tm1 := by
  unfold step
  split
  · rfl
  · cases i with
    | sigterm => rfl
    | sigint => rfl
    | sigalrm t now => rfl
    | run o =>
      simp only [main_step]
      split <;> (try split_ifs) <;> rfl

/-- No run changes the baseline `tm1`. -/
lemma run_steps_tm1 (inputs : List Input) (s : State) : (run_steps s inputs).tm1 = s.tm1 := by
  induction inputs generalizing s with
  | nil => rfl
  | cons i rest ih =>
    have : run_steps s (i :: rest) = run_steps (step s i) rest := rfl
    rw [this, ih, step_tm1]

/-- Every step keeps `bytes_sent` equal to the payload sum of the trace less
the payload of a send that has returned and is not counted yet. -/
lemma step_payload (s : State) (i : Input)
    (h : pending_payload s.loc ≤ sent_payload s.trace ∧
      s.bytes_sent = (sent_payload s.trace - pending_payload s.loc) % ULONG_MOD) :
    pending_payload (step s i).loc ≤ sent_payload (step s i).trace ∧
      (step s i).bytes_sent =
        (sent_payload (step s i).trace - pending_payload (step s i).loc) % ULONG_MOD := by
  obtain ⟨hle, hb⟩ := h
  unfold step
  split
  · exact ⟨hle, hb⟩
  · cases i with
    | sigterm => exact ⟨hle, hb⟩
    | sigint => exact ⟨hle, hb⟩
    | sigalrm t now =>
      simp only [alarm_signal, sent_payload_append, sent_payload, Nat.add_zero]
      exact ⟨hle, hb⟩
    | run o =>
      rcases hl : s.loc with _ | _ | _ | _ | ret | _
      · rw [hl] at hle hb
        simp only [main_step, hl]
        split_ifs <;> exact ⟨hle, hb⟩
      · rw [hl] at hle hb
        simp only [main_step, hl, sent_payload_append, sent_payload_packet_process,
          Nat.add_zero]
        exact ⟨hle, hb⟩
      · rw [hl] at hle hb
        simp only [main_step, hl]
        split_ifs <;>
          simp only [sent_payload_append, sent_payload, Nat.add_zero] <;> exact ⟨hle, hb⟩
      · rw [hl] at hle hb
        simp only [pending_payload, Nat.sub_zero] at hle hb
        simp only [main_step, hl, sent_payload_append, sent_payload, pending_payload]
        split_ifs
        · refine ⟨by omega, ?_⟩
          have e : sent_payload s.trace + (STR_SIZE + 0) - STR_SIZE = sent_payload s.trace := by
            omega
          rw [e]
          exact hb
        · refine ⟨by omega, ?_⟩
          exact hb
      · rw [hl] at hle hb
        simp only [pending_payload] at hle hb
        simp only [main_step, hl]
        split_ifs with hr
        · rw [if_pos hr] at hle hb
          refine ⟨Nat.zero_le _, ?_⟩
          show ulong_add s.bytes_sent STR_SIZE = (sent_payload s.trace - 0) % ULONG_MOD
          have e : sent_payload s.trace - STR_SIZE + STR_SIZE = sent_payload s.trace - 0 := by
            omega
          rw [hb, ulong_add, Nat.mod_add_mod, e]
        · rw [if_neg hr] at hle hb
          exact ⟨Nat.zero_le _, hb⟩
      · rw [hl] at hle hb
        simp only [main_step, hl]
        exact ⟨hle, hb⟩

/-- Every run keeps `bytes_sent` equal to the payload sum of the trace less the
payload of a send that has returned and is not counted yet. -/
lemma run_steps_payload (inputs : List Input) (s : State)
    (h : pending_payload s.loc ≤ sent_payload s.trace ∧
      s.bytes_sent = (sent_payload s.trace - pending_payload s.loc) % ULONG_MOD) :
    pending_payload (run_steps s inputs).loc ≤ sent_payload (run_steps s inputs).trace ∧
      (run_steps s inputs).bytes_sent =
        (sent_payload (run_steps s inputs).trace -
          pending_payload (run_steps s inputs).loc) % ULONG_MOD := by
  induction inputs generalizing s with
  | nil => exact h
  | cons i rest ih =>
    have : run_steps s (i :: rest) = run_steps (step s i) rest := rfl
    rw [this]
    exact ih _ (step_payload s i h)

/-- A telemetry tick delivered while the loop runs is `alarm_signal`. -/
lemma step_sigalrm (s : State) (time : Nat) (now : Timeval) (h : s.loc ≠ Loc.stopped) :
    step s (Input.sigalrm time now) = alarm_signal s time now := by
  unfold step
  split
  · contradiction
  · rfl

/-- The startup `env_ok` reaches the loop. -/
lemma main_init_env_ok : main_init env_ok = InitResult.entered (loop_entry env_ok) := by
  rfl

/-- C2 as stated fails: after the startup `env_ok`, when the first
`netchannel_send` has returned 128 and the statement
`bytes_sent += sizeof(str)` has not been executed yet, the sum of the payload
lengths of the sends that succeeded is 128 and a telemetry tick delivered at
that point prints `bytes_sent = 0`. -/
theorem tick_between_send_and_counter_prints_less :
    (run_steps (loop_entry env_ok) send_returned).loc = Loc.count 128 ∧
    sent_payload (run_steps (loop_entry env_ok) send_returned).trace = 128 ∧
    sent_payload (run_steps (loop_entry env_ok) send_returned).trace < ULONG_MOD ∧
    (alarm_line (run_steps (loop_entry env_ok) send_returned) ⟨101, 0⟩).bytes_sent = 0 ∧
    (telemetry_lines
      (step (run_steps (loop_entry env_ok) send_returned)
        (Input.sigalrm 101 ⟨101, 0⟩)).trace).map TelemetryLine.bytes_sent = [0] ∧
    (alarm_line (run_steps (loop_entry env_ok) send_returned) ⟨101, 0⟩).bytes_sent ≠
      sent_payload (run_steps (loop_entry env_ok) send_returned).trace := by
  have hp : sent_payload (run_steps (loop_entry env_ok) send_returned).trace = 128 := rfl
  have hb : (alarm_line (run_steps (loop_entry env_ok) send_returned) ⟨101, 0⟩).bytes_sent = 0 :=
    rfl
  refine ⟨rfl, hp, ?_, hb, rfl, ?_⟩
  · rw [hp]
    decide
  · rw [hp, hb]
    decide

/-- C2 amended: for every finite run of the loop from the state in which `main`
reaches it (any interleaving of SIGTERM, SIGINT, telemetry ticks and main-thread
steps with any outcomes, a signal being possible between the return of
`netchannel_send` and the counter statement), the payload sum starts from 0 and,
as long as the sum is representable in an `unsigned long`, a telemetry tick
delivered next prints as `bytes_sent` the sum of the payload lengths of the
engine sends that succeeded so far and whose counter statement has been
executed: the sum of all sends that succeeded, except between the return of a
successful `netchannel_send` and `bytes_sent += sizeof(str)`, where it prints
that sum less the 128 bytes of the send just returned.  One step changes
`bytes_sent` only when it is the counter statement of a successful send, and
then by `sizeof(str)`. -/
theorem telemetry_reports_counted_payload (env : InitEnv) (s0 : State) (inputs : List Input)
    (time : Nat) (now : Timeval)
    (hinit : main_init env = InitResult.entered s0)
    (hrunning : (run_steps s0 inputs).loc ≠ Loc.stopped)
    (hnowrap : sent_payload (run_steps s0 inputs).trace < ULONG_MOD) :
    s0.bytes_sent = 0 ∧ sent_payload s0.trace = 0 ∧
    (step (run_steps s0 inputs) (Input.sigalrm time now)).trace =
      (run_steps s0 inputs).trace ++
        [Event.time, Event.gettimeofday, Event.fprintf (alarm_line (run_steps s0 inputs) now),
         Event.alarm (run_steps s0 inputs).alarm_timeout] ∧
    (alarm_line (run_steps s0 inputs) now).bytes_sent +
        pending_payload (run_steps s0 inputs).loc =
      sent_payload (run_steps s0 inputs).trace ∧
    ((∀ ret, (run_steps s0 inputs).loc = Loc.count ret → ret < 0) →
      (alarm_line (run_steps s0 inputs) now).bytes_sent =
        sent_payload (run_steps s0 inputs).trace) ∧
    (∀ ret, (run_steps s0 inputs).loc = Loc.count ret → 0 ≤ ret →
      (alarm_line (run_steps s0 inputs) now).bytes_sent + STR_SIZE =
        sent_payload (run_steps s0 inputs).trace) ∧
    (∀ (s : State) (i : Input), (step s i).bytes_sent = s.bytes_sent ∨
      (∃ o ret, i = Input.run o ∧ s.loc = Loc.count ret ∧ 0 ≤ ret ∧
        (step s i).bytes_sent = ulong_add s.bytes_sent STR_SIZE)) := by
  obtain ⟨_, hb, _, _, hl0, ht⟩ := main_init_entered env s0 hinit
  have hinv := run_steps_payload inputs s0 (by rw [hb, ht, hl0]; exact ⟨le_refl _, rfl⟩)
  obtain ⟨hle, hbs⟩ := hinv
  have hsum : (alarm_line (run_steps s0 inputs) now).bytes_sent +
      pending_payload (run_steps s0 inputs).loc = sent_payload (run_steps s0 inputs).trace := by
    show (run_steps s0 inputs).bytes_sent + _ = _
    rw [hbs, Nat.mod_eq_of_lt (lt_of_le_of_lt (Nat.sub_le _ _) hnowrap)]
    omega
  refine ⟨hb, ht, ?_, hsum, ?_, ?_, ?_⟩
  · rw [step_sigalrm _ _ _ hrunning]
    rfl
  · intro hneg
    have hz : pending_payload (run_steps s0 inputs).loc = 0 := by
      rcases hl : (run_steps s0 inputs).loc with _ | _ | _ | _ | ret | _ <;>
        simp only [pending_payload]
      have := hneg ret hl
      rw [if_neg (by omega)]
    rw [hz] at hsum
    exact hsum
  · intro ret hl hr
    have hz : pending_payload (run_steps s0 inputs).loc = STR_SIZE := by
      rw [hl]
      simp only [pending_payload]
      rw [if_pos hr]
    rw [hz] at hsum
    exact hsum
  · intro s i
    unfold step
    split
    · exact Or.inl rfl
    · cases i with
      | sigterm => exact Or.inl rfl
      | sigint => exact Or.inl rfl
      | sigalrm t n => exact Or.inl rfl
      | run o =>
        rcases hl : s.loc with _ | _ | _ | _ | ret | _
        · left
          simp only [main_step, hl]
          split_ifs <;> rfl
        · left
          simp [main_step, hl]
        · left
          simp only [main_step, hl]
          split_ifs <;> rfl
        · left
          simp [main_step, hl]
        · by_cases hr : 0 ≤ ret
          · right
            exact ⟨o, ret, rfl, rfl, hr, by simp [main_step, hl, hr]⟩
          · left
            simp [main_step, hl, hr]
        · left
          simp [main_step, hl]

/-- Witness of C2 amended: after the startup `env_ok`, at the end of the run
`two_iterations` (one successful and one failed send, both counted) a tick at
105 s prints `bytes_sent = 128`, the payload sum; at the end of the run
`send_returned` a tick prints 128 less than the payload sum. -/
theorem telemetry_reports_counted_payload_witness :
    (run_steps (loop_entry env_ok) two_iterations).loc ≠ Loc.stopped ∧
    sent_payload (run_steps (loop_entry env_ok) two_iterations).trace = 128 ∧
    (alarm_line (run_steps (loop_entry env_ok) two_iterations) ⟨105, 0⟩).bytes_sent = 128 ∧
    (alarm_line (run_steps (loop_entry env_ok) send_returned) ⟨101, 0⟩).bytes_sent + STR_SIZE =
      sent_payload (run_steps (loop_entry env_ok) send_returned).trace := by
  have hl : (run_steps (loop_entry env_ok) two_iterations).loc ≠ Loc.stopped := by decide
  have hp : sent_payload (run_steps (loop_entry env_ok) two_iterations).trace = 128 := by
    rfl
  have hq : sent_payload (run_steps (loop_entry env_ok) send_returned).trace = 128 := by
    rfl
  have h := telemetry_reports_counted_payload env_ok (loop_entry env_ok) two_iterations 105
    ⟨105, 0⟩ main_init_env_ok hl (by rw [hp]; decide)
  have h2 := telemetry_reports_counted_payload env_ok (loop_entry env_ok) send_returned 101
    ⟨101, 0⟩ main_init_env_ok (by decide) (by rw [hq]; decide)
  have hc0 : (run_steps (loop_entry env_ok) two_iterations).loc = Loc.check := by decide
  refine ⟨hl, hp, ?_, h2.2.2.2.2.2.1 128 rfl (by decide)⟩
  rw [h.2.2.2.2.1 (fun ret hc => by rw [hc0] at hc; cases hc), hp]

/-! ## Theorems: TelemetryReporter -/

/-- The value `diff` is the distance in microseconds from the baseline. -/
lemma alarm_diff_micros (tm1 tm2 : Timeval) : alarm_diff tm1 tm2 = micros tm2 - micros tm1 := by
  unfold alarm_diff micros
  ring

/-- C3 as stated fails: after a startup at 100 s and a first tick at 101 s the
baseline `tm1` is still 100 s, not the instant the tick captured, and a second
tick at 102 s computes 2000000 microseconds and prints 2 seconds, while the
time since the previous tick is 1000000 microseconds. -/
theorem second_tick_elapsed_not_since_previous :
    state_after_tick.tm1 = ⟨100, 0⟩ ∧ state_after_tick.tm2 = ⟨101, 0⟩ ∧
    alarm_diff state_after_tick.tm1 ⟨102, 0⟩ = 2000000 ∧
    (alarm_line state_after_tick ⟨102, 0⟩).time = 2 ∧
    micros ⟨102, 0⟩ - micros ⟨101, 0⟩ = 1000000 ∧
    state_after_tick.tm1 ≠ ⟨101, 0⟩ ∧
    alarm_diff state_after_tick.tm1 ⟨102, 0⟩ ≠ micros ⟨102, 0⟩ - micros ⟨101, 0⟩ := by
  refine ⟨by decide, by decide, by decide, ?_, by decide, by decide, by decide⟩
  have h : state_after_tick.tm1 = ⟨100, 0⟩ := by decide
  simp only [alarm_line, h]
  norm_num [alarm_diff]

/-- C3 amended: the elapsed time a telemetry tick computes and reports is the
time since the baseline `tm1` taken at startup.  No step of the run writes
`tm1`: a tick stores the instant it captured in `tm2` only.  So every tick of
every run, at instant `now`, computes `now - startup` microseconds and prints
that divided by 10^6, and it leaves `bytes_sent` and `error` unchanged. -/
theorem tick_elapsed_since_startup (env : InitEnv) (s0 : State) (inputs : List Input)
    (time : Nat) (now : Timeval)
    (hinit : main_init env = InitResult.entered s0)
    (hrunning : (run_steps s0 inputs).loc ≠ Loc.stopped) :
    (run_steps s0 inputs).tm1 = env.gettimeofday ∧
    (step (run_steps s0 inputs) (Input.sigalrm time now)).tm1 = env.gettimeofday ∧
    (step (run_steps s0 inputs) (Input.sigalrm time now)).tm2 = now ∧
    alarm_diff (run_steps s0 inputs).tm1 now = micros now - micros env.gettimeofday ∧
    (alarm_line (run_steps s0 inputs) now).time =
      ((micros now - micros env.gettimeofday : Int) : ℚ) / 1000000 ∧
    (step (run_steps s0 inputs) (Input.sigalrm time now)).trace =
      (run_steps s0 inputs).trace ++
        [Event.time, Event.gettimeofday, Event.fprintf (alarm_line (run_steps s0 inputs) now),
         Event.alarm (run_steps s0 inputs).alarm_timeout] ∧
    (step (run_steps s0 inputs) (Input.sigalrm time now)).bytes_sent =
      (run_steps s0 inputs).bytes_sent ∧
    (step (run_steps s0 inputs) (Input.sigalrm time now)).error =
      (run_steps s0 inputs).error := by
  obtain ⟨_, _, _, htm, _, _⟩ := main_init_entered env s0 hinit
  have h1 : (run_steps s0 inputs).tm1 = env.gettimeofday := by
    rw [run_steps_tm1, htm]
  have hd : alarm_diff (run_steps s0 inputs).tm1 now = micros now - micros env.gettimeofday := by
    rw [alarm_diff_micros, h1]
  refine ⟨h1, ?_, ?_, hd, ?_, ?_, ?_, ?_⟩
  · rw [step_tm1, h1]
  · rw [step_sigalrm _ _ _ hrunning]
    rfl
  · show ((alarm_diff (run_steps s0 inputs).tm1 now : Int) : ℚ) / 1000000 = _
    rw [hd]
  · rw [step_sigalrm _ _ _ hrunning]
    rfl
  · rw [step_sigalrm _ _ _ hrunning]
    rfl
  · rw [step_sigalrm _ _ _ hrunning]
    rfl

/-- Witness of C3 amended: after the startup `env_ok` (baseline 100 s) and the
run `two_iterations`, which contains a tick at 101 s, a tick at 102 s computes
the time since startup. -/
theorem tick_elapsed_since_startup_witness :
    (run_steps (loop_entry env_ok) two_iterations).loc ≠ Loc.stopped ∧
    alarm_diff (run_steps (loop_entry env_ok) two_iterations).tm1 ⟨102, 0⟩ =
      micros ⟨102, 0⟩ - micros ⟨100, 0⟩ :=
  ⟨by decide,
   (tick_elapsed_since_startup env_ok (loop_entry env_ok) two_iterations 102 ⟨102, 0⟩
      main_init_env_ok (by decide)).2.2.2.1⟩

/-- The main thread never writes `need_exit`. -/
lemma main_step_need_exit (s : State) (o : IterEnv) :
    (main_step s o).need_exit = s.need_exit := by
  simp only [main_step]
  split <;> (try split_ifs) <;> rfl

/-- A telemetry tick or a main-thread statement leaves `need_exit` as it is. -/
lemma step_need_exit_other (s : State) :
    (∀ time now, (step s (Input.sigalrm time now)).need_exit = s.need_exit) ∧
    (∀ o, (step s (Input.run o)).need_exit = s.need_exit) := by
  constructor
  · intro time now
    unfold step
    split <;> rfl
  · intro o
    unfold step
    split
    · rfl
    · exact main_step_need_exit s o

/-- Once non-zero, `need_exit` is non-zero after every step. -/
lemma step_need_exit_ne_zero (s : State) (i : Input) (h : s.need_exit ≠ 0) :
    (step s i).need_exit ≠ 0 := by
  cases i with
  | sigterm =>
    unfold step
    split
    · exact h
    · simp [term_signal, SIGTERM]
  | sigint =>
    unfold step
    split
    · exact h
    · simp [term_signal, SIGINT]
  | sigalrm time now => rw [(step_need_exit_other s).1]; exact h
  | run o => rw [(step_need_exit_other s).2]; exact h

/-- Once non-zero, `need_exit` is non-zero after every run. -/
lemma run_steps_need_exit_ne_zero (inputs : List Input) (s : State) (h : s.need_exit ≠ 0) :
    (run_steps s inputs).need_exit ≠ 0 := by
  induction inputs generalizing s with
  | nil => exact h
  | cons i rest ih =>
    have : run_steps s (i :: rest) = run_steps (step s i) rest := rfl
    rw [this]
    exact ih _ (step_need_exit_ne_zero s i h)

/-- C10: `need_exit` is 0 at program start and when the loop is reached;
`term_signal` stores `signo` in `need_exit` and leaves every other variable
(counters, timestamps, socket, locals, position, calls made) unchanged; over
the steps of the run (SIGTERM, SIGINT, telemetry tick, main-thread statement)
a non-zero `need_exit` stays non-zero, and a tick or a main-thread statement
does not write it. -/
theorem need_exit_written_only_by_term_signal :
    start.need_exit = 0 ∧
    (∀ (env : InitEnv) (s0 : State), main_init env = InitResult.entered s0 → s0.need_exit = 0) ∧
    (∀ (s : State) (signo : Int),
      (term_signal s signo).need_exit = signo ∧
      (term_signal s signo).bytes_sent = s.bytes_sent ∧
      (term_signal s signo).error = s.error ∧
      (term_signal s signo).tm1 = s.tm1 ∧
      (term_signal s signo).tm2 = s.tm2 ∧
      (term_signal s signo).packet_timestamp = s.packet_timestamp ∧
      (term_signal s signo).packet_socket = s.packet_socket ∧
      (term_signal s signo).alarm_timeout = s.alarm_timeout ∧
      (term_signal s signo).sent = s.sent ∧
      (term_signal s signo).recv = s.recv ∧
      (term_signal s signo).loc = s.loc ∧
      (term_signal s signo).trace = s.trace) ∧
    (∀ (s : State), s.loc ≠ Loc.stopped →
      step s Input.sigterm = term_signal s SIGTERM ∧ step s Input.sigint = term_signal s SIGINT ∧
      SIGTERM ≠ 0 ∧ SIGINT ≠ 0) ∧
    (∀ (s : State) (i : Input), s.need_exit ≠ 0 → (step s i).need_exit ≠ 0) ∧
    (∀ (s : State) (inputs : List Input), s.need_exit ≠ 0 →
      (run_steps s inputs).need_exit ≠ 0) ∧
    (∀ (s : State) (time : Nat) (now : Timeval),
      (step s (Input.sigalrm time now)).need_exit = s.need_exit) ∧
    (∀ (s : State) (o : IterEnv), (step s (Input.run o)).need_exit = s.need_exit) := by
  refine ⟨rfl, ?_, ?_, ?_, ?_, ?_, ?_, ?_⟩
  · intro env s0 h
    exact (main_init_entered env s0 h).1
  · intro s signo
    exact ⟨rfl, rfl, rfl, rfl, rfl, rfl, rfl, rfl, rfl, rfl, rfl, rfl⟩
  · intro s h
    refine ⟨?_, ?_, by decide, by decide⟩
    · unfold step
      split
      · contradiction
      · rfl
    · unfold step
      split
      · contradiction
      · rfl
  · exact step_need_exit_ne_zero
  · intro s inputs h
    exact run_steps_need_exit_ne_zero inputs s h
  · intro s
    exact (step_need_exit_other s).1
  · intro s
    exact (step_need_exit_other s).2

/-- Witness of C10: after the startup `env_ok`, SIGINT is delivered and the
run `two_iterations` follows; `need_exit` is still non-zero. -/
theorem need_exit_written_only_by_term_signal_witness :
    (loop_entry env_ok).need_exit = 0 ∧
    (step (loop_entry env_ok) Input.sigint).need_exit ≠ 0 ∧
    (run_steps (step (loop_entry env_ok) Input.sigint) two_iterations).need_exit ≠ 0 :=
  ⟨need_exit_written_only_by_term_signal.2.1 env_ok (loop_entry env_ok) main_init_env_ok,
   by decide,
   need_exit_written_only_by_term_signal.2.2.2.2.2.1 (step (loop_entry env_ok) Input.sigint)
     two_iterations (by decide)⟩

/-! ## Theorems: the driver loop as a state machine -/

/-- A main-thread statement delivered while the loop runs is `main_step`. -/
lemma step_run (s : State) (o : IterEnv) (h : s.loc ≠ Loc.stopped) :
    step s (Input.run o) = main_step s o := by
  unfold step
  split
  · contradiction
  · rfl

/-- A signal does not move the main thread. -/
lemma step_signal_loc (s : State) (i : Input) (h : ∀ o, i ≠ Input.run o) :
    (step s i).loc = s.loc := by
  unfold step
  split
  · rfl
  · cases i with
    | sigterm => rfl
    | sigint => rfl
    | sigalrm time now => rfl
    | run o => exact absurd rfl (h o)

/-- Where the main thread is after its next statement, whatever the outcomes. -/
lemma main_step_loc (s : State) (o : IterEnv) :
    (main_step s o).loc =
      match s.loc with
      | Loc.check => if s.need_exit ≠ 0 then Loc.stopped else Loc.process
      | Loc.process => Loc.recv
      | Loc.recv => Loc.send
      | Loc.send => Loc.count o.netchannel_send_ret
      | Loc.count _ => Loc.check
      | Loc.stopped => Loc.stopped := by
  rcases hl : s.loc with _ | _ | _ | _ | ret | _ <;> simp only [main_step, hl]
  · split_ifs <;> rfl
  · split_ifs <;> rfl
  · split_ifs <;> rfl

/-- Once `need_exit` is non-zero the loop has stopped as soon as the main thread
has executed `steps_left` statements. -/
lemma run_steps_stops (inputs : List Input) (s : State) (h : s.need_exit ≠ 0)
    (hn : steps_left s.loc ≤ count_runs inputs) :
    (run_steps s inputs).loc = Loc.stopped := by
  induction inputs generalizing s with
  | nil =>
    simp only [count_runs, Nat.le_zero] at hn
    rcases hl : s.loc with _ | _ | _ | _ | ret | _ <;> rw [hl] at hn <;>
      simp [steps_left] at hn
    exact hl
  | cons i rest ih =>
    have hcons : run_steps s (i :: rest) = run_steps (step s i) rest := rfl
    rw [hcons]
    apply ih _ (step_need_exit_ne_zero s i h)
    by_cases hs : s.loc = Loc.stopped
    · have : step s i = s := by
        unfold step
        split
        · rfl
        · contradiction
      rw [this, hs]
      simp [steps_left]
    · cases i with
      | sigterm =>
        rw [step_signal_loc s _ (by intro o; simp)]
        simpa [count_runs] using hn
      | sigint =>
        rw [step_signal_loc s _ (by intro o; simp)]
        simpa [count_runs] using hn
      | sigalrm time now =>
        rw [step_signal_loc s _ (by intro o; simp)]
        simpa [count_runs] using hn
      | run o =>
        rw [step_run s o hs, main_step_loc]
        simp only [count_runs] at hn
        rcases hl : s.loc with _ | _ | _ | _ | ret | _ <;> rw [hl] at hn <;>
          simp [steps_left, h] at hn ⊢ <;> omega

/-- The transport calls of `packet_process` are not engine sends. -/
lemma count_sends_packet_process (env : ProcEnv) (fd : Int) :
    (packet_process env fd).2.countP Event.is_netchannel_send = 0 := by
  simp only [packet_process]
  split_ifs <;> simp [Event.is_netchannel_send]

/-- Once `need_exit` is non-zero, a step makes an engine send only if one was
still ahead in the iteration in progress. -/
lemma step_sends (s : State) (i : Input) (h : s.need_exit ≠ 0) :
    (step s i).trace.countP Event.is_netchannel_send + sends_left (step s i).loc ≤
      s.trace.countP Event.is_netchannel_send + sends_left s.loc := by
  by_cases hs : s.loc = Loc.stopped
  · have : step s i = s := by
      unfold step
      split
      · rfl
      · contradiction
    rw [this]
  · cases i with
    | sigterm =>
      rw [step_signal_loc s _ (by intro o; simp)]
      unfold step
      split
      · contradiction
      · simp [term_signal]
    | sigint =>
      rw [step_signal_loc s _ (by intro o; simp)]
      unfold step
      split
      · contradiction
      · simp [term_signal]
    | sigalrm time now =>
      rw [step_signal_loc s _ (by intro o; simp)]
      rw [step_sigalrm s time now hs]
      simp [alarm_signal, Event.is_netchannel_send]
    | run o =>
      rw [step_run s o hs]
      rcases hl : s.loc with _ | _ | _ | _ | ret | _
      · simp [main_step, hl, h, sends_left]
      · simp [main_step, hl, sends_left, count_sends_packet_process]
      · simp only [main_step, hl]
        split_ifs <;> simp [sends_left, Event.is_netchannel_send]
      · simp [main_step, hl, sends_left, Event.is_netchannel_send]
      · simp only [main_step, hl]
        split_ifs <;> simp [sends_left]
      · exact absurd hl hs

/-- Once `need_exit` is non-zero, a run makes at most the engine send of the
iteration in progress. -/
lemma run_steps_sends (inputs : List Input) (s : State) (h : s.need_exit ≠ 0) :
    (run_steps s inputs).trace.countP Event.is_netchannel_send +
        sends_left (run_steps s inputs).loc ≤
      s.trace.countP Event.is_netchannel_send + sends_left s.loc := by
  induction inputs generalizing s with
  | nil => exact le_refl _
  | cons i rest ih =>
    have hcons : run_steps s (i :: rest) = run_steps (step s i) rest := rfl
    rw [hcons]
    exact le_trans (ih _ (step_need_exit_ne_zero s i h)) (step_sends s i h)

/-- While `need_exit` is 0 and no SIGTERM or SIGINT is delivered the loop keeps
running. -/
lemma run_steps_keeps_running (inputs : List Input) (s : State)
    (hs : s.loc ≠ Loc.stopped) (h : s.need_exit = 0)
    (hin : ∀ i ∈ inputs, Input.is_term i = false) :
    (run_steps s inputs).loc ≠ Loc.stopped ∧ (run_steps s inputs).need_exit = 0 := by
  induction inputs generalizing s with
  | nil => exact ⟨hs, h⟩
  | cons i rest ih =>
    have hcons : run_steps s (i :: rest) = run_steps (step s i) rest := rfl
    rw [hcons]
    have hi := hin i (List.mem_cons_self _ _)
    have hrest : ∀ j ∈ rest, Input.is_term j = false :=
      fun j hj => hin j (List.mem_cons_of_mem _ hj)
    cases i with
    | sigterm => simp [Input.is_term] at hi
    | sigint => simp [Input.is_term] at hi
    | sigalrm time now =>
      apply ih _ _ _ hrest
      · rw [step_signal_loc s _ (by intro o; simp)]
        exact hs
      · rw [(step_need_exit_other s).1]
        exact h
    | run o =>
      apply ih _ _ _ hrest
      · rw [step_run s o hs, main_step_loc]
        rcases hl : s.loc with _ | _ | _ | _ | ret | _ <;> simp [h]
        exact hs hl
      · rw [(step_need_exit_other s).2]
        exact h

/-- C8: the loop leaves RUNNING exactly by evaluating its condition with
`need_exit` non-zero.  A step stops the loop if and only if it is the main
thread at the loop condition with `need_exit` non-zero; with `need_exit = 0` an
iteration returns to the loop condition for every outcome of the inbound read,
the engine receive and the engine send, and a run without SIGTERM or SIGINT
never stops; once `need_exit` is non-zero the loop has stopped after at most
five further main-thread steps (what is left of the iteration in progress,
`packet_process`, `netchannel_recv`, the call of `netchannel_send` and its
counter statement, and the loop condition), at most one engine send (that of
the iteration in progress) is made, and `main` returns 0. -/
theorem driver_loop_stops_iff_need_exit :
    (∀ (s : State) (i : Input), s.loc ≠ Loc.stopped →
      ((step s i).loc = Loc.stopped ↔
        (s.loc = Loc.check ∧ s.need_exit ≠ 0 ∧ ∃ o, i = Input.run o))) ∧
    (∀ (s : State) (o : IterEnv), s.loc = Loc.check → s.need_exit = 0 →
      (iteration s o).loc = Loc.check ∧ (iteration s o).need_exit = 0) ∧
    (∀ (s : State) (inputs : List Input), s.loc ≠ Loc.stopped → s.need_exit = 0 →
      (∀ i ∈ inputs, Input.is_term i = false) →
      (run_steps s inputs).loc ≠ Loc.stopped) ∧
    (∀ (s : State) (inputs : List Input), s.need_exit ≠ 0 → 5 ≤ count_runs inputs →
      (run_steps s inputs).loc = Loc.stopped ∧
      (run_steps s inputs).trace.countP Event.is_netchannel_send ≤
        s.trace.countP Event.is_netchannel_send + 1) ∧
    (∀ (env : InitEnv) (s0 : State) (before after : List Input),
      main_init env = InitResult.entered s0 →
      (run_steps s0 before).need_exit ≠ 0 → 5 ≤ count_runs after →
      (main env (before ++ after)).1 = some 0) := by
  have hstop : ∀ (s : State) (inputs : List Input), s.need_exit ≠ 0 → 5 ≤ count_runs inputs →
      (run_steps s inputs).loc = Loc.stopped := by
    intro s inputs h hn
    apply run_steps_stops inputs s h
    rcases hl : s.loc with _ | _ | _ | _ | ret | _ <;> simp [steps_left] <;> omega
  refine ⟨?_, ?_, ?_, ?_, ?_⟩
  · intro s i hs
    cases i with
    | sigterm =>
      rw [step_signal_loc s _ (by intro o; simp)]
      simp [hs]
    | sigint =>
      rw [step_signal_loc s _ (by intro o; simp)]
      simp [hs]
    | sigalrm time now =>
      rw [step_signal_loc s _ (by intro o; simp)]
      simp [hs]
    | run o =>
      rw [step_run s o hs, main_step_loc]
      rcases hl : s.loc with _ | _ | _ | _ | ret | _ <;> simp
      exact hs hl
  · intro s o hloc hrun
    obtain ⟨hl, _, _, _, hn⟩ := before_send s o hloc hrun
    have hit : iteration s o =
        main_step (main_step (main_step (main_step (main_step s o) o) o) o) o := rfl
    rw [hit]
    refine ⟨?_, ?_⟩
    · rw [main_step_loc, main_step_loc, hl]
    · rw [main_step_need_exit, main_step_need_exit, hn, hrun]
  · intro s inputs hs h hin
    exact (run_steps_keeps_running inputs s hs h hin).1
  · intro s inputs h hn
    refine ⟨hstop s inputs h hn, ?_⟩
    have hb := run_steps_sends inputs s h
    have hle : sends_left s.loc ≤ 1 := by
      rcases hl : s.loc with _ | _ | _ | _ | ret | _ <;> simp [sends_left]
    omega
  · intro env s0 before after hinit h hn
    have hrun : run_steps s0 (before ++ after) = run_steps (run_steps s0 before) after := by
      simp [run_steps, List.foldl_append]
    simp only [main, hinit, hrun, hstop _ after h hn, if_true]

/-- Witness of C8: after the startup `env_ok`, SIGINT arrives when the first
iteration has passed the loop condition; the loop then stops within the run
`two_iterations` and `main` returns 0.  Without the signal the same run ends at
the loop condition, still running. -/
theorem driver_loop_stops_iff_need_exit_witness :
    (main env_ok ([Input.run (iter_env 128), Input.sigint] ++ two_iterations)).1 = some 0 ∧
    (run_steps (loop_entry env_ok) two_iterations).loc ≠ Loc.stopped ∧
    (iteration (loop_entry env_ok) (iter_env 128)).loc = Loc.check :=
  ⟨driver_loop_stops_iff_need_exit.2.2.2.2 env_ok (loop_entry env_ok)
     [Input.run (iter_env 128), Input.sigint] two_iterations main_init_env_ok
     (by decide) (by decide),
   driver_loop_stops_iff_need_exit.2.2.1 (loop_entry env_ok) two_iterations
     (by decide) (by decide) (by decide),
   (driver_loop_stops_iff_need_exit.2.1 (loop_entry env_ok) (iter_env 128)
     (by decide) (by decide)).1⟩

/-! ## Theorems: startup and exit status -/

/-- The option loop ends in the `default:` case exactly when `getopt` returns a
character other than the five options that take an argument (`-h`, or `?` for
an unrecognised flag). -/
lemma parse_options_none (l : List GetoptItem) (c : Config) :
    parse_options l c = none ↔
      ∃ it ∈ l, it.ch ≠ 'p' ∧ it.ch ≠ 'D' ∧ it.ch ≠ 'S' ∧ it.ch ≠ 'd' ∧ it.ch ≠ 's' := by
  induction l generalizing c with
  | nil => simp [parse_options]
  | cons it rest ih =>
    unfold parse_options
    split
    · rename_i h
      rw [ih]
      simp [h]
    · rename_i h
      rw [ih]
      simp [h]
    · rename_i h
      rw [ih]
      simp [h]
    · rename_i h
      rw [ih]
      simp [h]
    · rename_i h
      rw [ih]
      simp [h]
    · rename_i h1 h2 h3 h4 h5
      simp only [true_iff]
      exact ⟨it, List.mem_cons_self _ _, h1, h2, h3, h4, h5⟩

/-- The function `packet_convert_addr` fails exactly when the name does not resolve. -/
lemma convert_addr_fail (g : String → Option Nat) (name : String) :
    (packet_convert_addr g name).1 ≠ 0 ↔ g name = none := by
  unfold packet_convert_addr
  cases g name <;> simp

/-- The function `packet_create_socket` returns -1 exactly when `socket` returns
-1 or `bind` returns non-zero. -/
lemma create_socket_fail (a b : Int) :
    (packet_create_socket a b).1 = -1 ↔ (a = -1 ∨ b ≠ 0) := by
  unfold packet_create_socket
  split_ifs with h1 h2
  · simp [h1]
  · simp [h2]
  · simp only [ne_eq, not_not] at h2
    simp [h1, h2]

/-- Past the option loop, `main` either returns a non-zero status because some
initialization step failed, or reaches the loop with every step successful. -/
lemma main_init_cases (env : InitEnv) (c : Config)
    (hp : parse_options env.getopt (default_config env.rand) = some c) :
    (∃ status trace, main_init env = InitResult.returned status trace ∧ status ≠ 0 ∧
      init_fails env c) ∨
    (∃ s0, main_init env = InitResult.entered s0 ∧ ¬ init_fails env c) := by
  generalize hr : main_init env = r
  unfold main_init at hr
  rw [hp] at hr
  dsimp only at hr
  split_ifs at hr with h1 h2 h3 h4 h5 h6 h7 h8 <;> subst hr
  · left
    exact ⟨_, _, rfl, by decide, Or.inl ((convert_addr_fail _ _).mp h1)⟩
  · left
    exact ⟨_, _, rfl, by decide, Or.inr (Or.inl ((convert_addr_fail _ _).mp h2))⟩
  · left
    exact ⟨_, _, rfl, h3, Or.inr (Or.inr (Or.inl h3))⟩
  · left
    exact ⟨_, _, rfl, h4, Or.inr (Or.inr (Or.inr (Or.inl h4)))⟩
  · left
    exact ⟨_, _, rfl, h5, Or.inr (Or.inr (Or.inr (Or.inr (Or.inl h5))))⟩
  · left
    refine ⟨_, _, rfl, by decide, ?_⟩
    rcases (create_socket_fail _ _).mp h6 with h | h
    · exact Or.inr (Or.inr (Or.inr (Or.inr (Or.inr (Or.inl h)))))
    · exact Or.inr (Or.inr (Or.inr (Or.inr (Or.inr (Or.inr (Or.inl h))))))
  · left
    exact ⟨_, _, rfl, by decide,
      Or.inr (Or.inr (Or.inr (Or.inr (Or.inr (Or.inr (Or.inr (Or.inl h7)))))))⟩
  · left
    exact ⟨_, _, rfl, by decide,
      Or.inr (Or.inr (Or.inr (Or.inr (Or.inr (Or.inr (Or.inr (Or.inr h8)))))))⟩
  · right
    refine ⟨_, rfl, ?_⟩
    have g1 : ¬ env.gethostbyname c.saddr = none :=
      fun hx => h1 ((convert_addr_fail _ _).mpr hx)
    have g2 : ¬ env.gethostbyname c.daddr = none :=
      fun hx => h2 ((convert_addr_fail _ _).mpr hx)
    have g6 := mt (create_socket_fail env.socket_ret env.bind_ret).mpr h6
    simp only [init_fails]
    tauto

/-- When a name does not resolve, `main` prints usage and returns -1 without
creating a socket. -/
lemma main_init_unresolved (env : InitEnv) (c : Config)
    (hp : parse_options env.getopt (default_config env.rand) = some c)
    (h : env.gethostbyname c.saddr = none ∨ env.gethostbyname c.daddr = none) :
    ∃ trace, main_init env = InitResult.returned (-1) trace ∧
      trace.getLast? = some Event.usage ∧ trace.countP Event.is_socket = 0 := by
  generalize hr : main_init env = r
  unfold main_init at hr
  rw [hp] at hr
  dsimp only at hr
  by_cases h1 : env.gethostbyname c.saddr = none
  · rw [if_pos ((convert_addr_fail _ _).mpr h1)] at hr
    subst hr
    refine ⟨_, rfl, by simp, ?_⟩
    simp [packet_convert_addr, h1, Event.is_socket]
  · have h2 : env.gethostbyname c.daddr = none := by tauto
    have c1 : ¬ (packet_convert_addr env.gethostbyname c.saddr).1 ≠ 0 :=
      fun hx => h1 ((convert_addr_fail _ _).mp hx)
    rw [if_neg c1, if_pos ((convert_addr_fail _ _).mpr h2)] at hr
    subst hr
    refine ⟨_, rfl, by simp, ?_⟩
    obtain ⟨a, ha⟩ := Option.ne_none_iff_exists'.mp h1
    simp [packet_convert_addr, ha, h2, Event.is_socket]

/-- C7: whatever the collaborators return, `main` returns 0 only from the
`default:` case of the option loop (usage, for `-h` or an unrecognised flag) or
after the loop has stopped.  Past the option loop, when any initialization step
fails (source or destination resolution, `netchannel_init`, `route_init`,
`route_add`, `socket`, `bind`, `netchannel_create`, `netchannel_connect`),
`main` returns a non-zero status without reaching the loop; when a name does
not resolve it prints usage last and returns -1 without any `socket` call. -/
theorem main_exit_status (env : InitEnv) (inputs : List Input) :
    ((main env inputs).1 = some 0 →
      ((∃ it ∈ env.getopt,
          it.ch ≠ 'p' ∧ it.ch ≠ 'D' ∧ it.ch ≠ 'S' ∧ it.ch ≠ 'd' ∧ it.ch ≠ 's') ∧
        (main env inputs).2 = [Event.usage]) ∨
      (∃ s0, main_init env = InitResult.entered s0 ∧
        (run_steps s0 inputs).loc = Loc.stopped)) ∧
    (∀ c, parse_options env.getopt (default_config env.rand) = some c → init_fails env c →
      ∃ status trace, main_init env = InitResult.returned status trace ∧ status ≠ 0 ∧
        main env inputs = (some status, trace)) ∧
    (∀ c, parse_options env.getopt (default_config env.rand) = some c →
      (env.gethostbyname c.saddr = none ∨ env.gethostbyname c.daddr = none) →
      ∃ trace, main env inputs = (some (-1), trace) ∧
        trace.getLast? = some Event.usage ∧ trace.countP Event.is_socket = 0) := by
  refine ⟨?_, ?_, ?_⟩
  · intro h0
    cases hp : parse_options env.getopt (default_config env.rand) with
    | none =>
      left
      refine ⟨(parse_options_none _ _).mp hp, ?_⟩
      simp [main, main_init, hp]
    | some c =>
      right
      rcases main_init_cases env c hp with ⟨status, trace, hm, hne, _⟩ | ⟨s0, hm, _⟩
      · simp only [main, hm, Option.some.injEq] at h0
        exact absurd h0 hne
      · refine ⟨s0, hm, ?_⟩
        simp only [main, hm] at h0
        by_contra hl
        simp [hl] at h0
  · intro c hp hf
    rcases main_init_cases env c hp with ⟨status, trace, hm, hne, _⟩ | ⟨s0, _, hnf⟩
    · exact ⟨status, trace, hm, hne, by simp [main, hm]⟩
    · exact absurd hf hnf
  · intro c hp h
    obtain ⟨trace, hm, hl, hc⟩ := main_init_unresolved env c hp h
    exact ⟨trace, by simp [main, hm], hl, hc⟩

/-- Witness of C7: with no options and an unresolvable destination name `main`
prints usage and returns -1, a non-zero status, and no socket is created; with
the startup `env_ok`, SIGINT and one main-thread statement, `main` returns 0
after the loop has stopped. -/
theorem main_exit_status_witness :
    (∃ trace, main env_unresolved [] = (some (-1), trace) ∧
      trace.getLast? = some Event.usage ∧ trace.countP Event.is_socket = 0) ∧
    (∃ status trace, main_init env_unresolved = InitResult.returned status trace ∧
      status ≠ 0 ∧ main env_unresolved [] = (some status, trace)) ∧
    (((∃ it ∈ env_ok.getopt,
          it.ch ≠ 'p' ∧ it.ch ≠ 'D' ∧ it.ch ≠ 'S' ∧ it.ch ≠ 'd' ∧ it.ch ≠ 's') ∧
        (main env_ok [Input.sigint, Input.run (iter_env 0)]).2 = [Event.usage]) ∨
      (∃ s0, main_init env_ok = InitResult.entered s0 ∧
        (run_steps s0 [Input.sigint, Input.run (iter_env 0)]).loc = Loc.stopped)) :=
  ⟨(main_exit_status env_unresolved []).2.2 (default_config env_unresolved.rand) rfl
      (Or.inr (by decide)),
   (main_exit_status env_unresolved []).2.1 (default_config env_unresolved.rand) rfl
      (Or.inr (Or.inl (by decide))),
   (main_exit_status env_ok [Input.sigint, Input.run (iter_env 0)]).1 (by decide)⟩

end Packet
